import Mathlib

/-!
Verification of the address-space allocator of fuel-devops
(`devops/models/network.py`, `devops/models/environment.py`,
`devops/helpers/network.py`).

IPv4 addresses are embedded as natural numbers below `2 ^ 32`; a network
(`netaddr.IPNetwork`) is a base value plus a CIDR length.  Django rows,
the durable store and the `netaddr` library calls used by the source are
embedded as explicit data; the one durable-store primitive whose outcome
depends on concurrent interleavings (`objects.create` inside
`transaction.atomic`) is abstracted as an oracle `attempt` mapping each
candidate network to its result, faithful to the three outcomes the
source distinguishes (success, `IntegrityError` mentioning `name`,
other `IntegrityError`).
-/

/-- Embeds `netaddr.IPNetwork`: base address value plus CIDR length. -/
structure IPNetwork where
  base : Nat
  prefixlen : Nat
deriving DecidableEq, Repr

/-- Embeds `IPNetwork.size`: number of addresses in the network. -/
def IPNetwork.size (n : IPNetwork) : Nat := 2 ^ (32 - n.prefixlen)

/-- Embeds `IPNetwork.first`: value of the network (lowest) address: the base with
host bits cleared, i.e. `base & netmask`. -/
def IPNetwork.first (n : IPNetwork) : Nat := n.base - n.base % n.size

/-- Embeds `IPNetwork.last`: value of the broadcast (highest) address. -/
def IPNetwork.last (n : IPNetwork) : Nat := n.first + n.size - 1

/-- Embeds `str(IPAddress(v))`: dotted-quad rendering of an address value. -/
def ipv4Str (v : Nat) : String :=
  toString (v / 2 ^ 24 % 256) ++ "." ++ toString (v / 2 ^ 16 % 256) ++ "."
    ++ toString (v / 2 ^ 8 % 256) ++ "." ++ toString (v % 256)

/-- Embeds `IPNetwork.__getitem__(i)`: the i-th address of the network; negative
indices count from the end; out of range raises `IndexError` (`none`). -/
def IPNetwork.getitem (n : IPNetwork) (i : Int) : Option Nat :=
  let j : Int := if i < 0 then i + n.size else i
  if 0 ≤ j ∧ j < (n.size : Int) then some (n.first + j.toNat) else none

/-- Embeds `IPNetwork.iter_hosts()`: the usable host addresses in increasing order,
excluding the network and broadcast addresses (netaddr behaviour for the
IPv4 networks of prefix ≤ 30 handled by this repository). -/
def IPNetwork.iter_hosts (n : IPNetwork) : List Nat :=
  (List.range (n.size - 2)).map (fun k => n.first + 1 + k)

/-- Two networks overlap when their address ranges intersect. -/
def IPNetwork.overlaps (a b : IPNetwork) : Prop :=
  a.first ≤ b.last ∧ b.first ≤ a.last

instance (a b : IPNetwork) : Decidable (a.overlaps b) := by
  unfold IPNetwork.overlaps
  exact inferInstance

/-- Containment: `a` is contained in `b` (every address of `a` is an address of `b`). -/
def IPNetwork.containedIn (a b : IPNetwork) : Prop :=
  b.first ≤ a.first ∧ a.last ≤ b.last

instance (a b : IPNetwork) : Decidable (a.containedIn b) := by
  unfold IPNetwork.containedIn
  exact inferInstance

/-- Membership: `s` is (the dotted-quad rendering of) an address inside `n`. -/
def IPNetwork.memStr (n : IPNetwork) (s : String) : Bool :=
  ((List.range n.size).map (fun k => ipv4Str (n.first + k))).contains s

/-- Modelled from the spec: `IpNetworksPool` (`devops/helpers/network.py`,
not present under `src/`; only its unit tests and callers are).  Per
supernet, every equal-sized block of length `pfx` contained in it, in
increasing base-address order. -/
def IpNetworksPool.subnets (supernet : IPNetwork) (pfx : Nat) : List IPNetwork :=
  (List.range (2 ^ (pfx - supernet.prefixlen))).map
    (fun i => ⟨supernet.first + i * 2 ^ (32 - pfx), pfx⟩)

/-- Modelled from the spec: iterating an `IpNetworksPool(networks, prefix,
allocated_networks)` yields, per supernet in input order, its blocks of
length `pfx` in increasing base-address order, skipping any block equal to
an already-allocated network (exact match, not partial overlap). -/
def IpNetworksPool.enumerate (networks : List IPNetwork) (pfx : Nat)
    (allocated_networks : List IPNetwork) : List IPNetwork :=
  networks.flatMap (fun s =>
    (IpNetworksPool.subnets s pfx).filter
      (fun c => !(allocated_networks.contains c)))

/-- An `AddressPool` row: its name, claimed subnet, and the `ip_reserved`
and `ip_ranges` param fields (insertion-ordered dicts embedded as
association lists; after creation both hold literal address strings). -/
structure AddressPool where
  name : String
  net : IPNetwork
  ip_reserved : List (String × String)
  ip_ranges : List (String × (String × String))
deriving DecidableEq, Repr

/-- Embeds `AddressPool.get_ip(ip_name)`: the reserved IP stored under `ip_name`,
or `None` (with a debug log) when absent. -/
def AddressPool.get_ip (p : AddressPool) (ip_name : String) : Option String :=
  (p.ip_reserved.find? (fun kv => kv.1 == ip_name)).map (fun kv => kv.2)

/-- Embeds `AddressPool.ip_range_start(range_name)`. -/
def AddressPool.ip_range_start (p : AddressPool) (range_name : String) :
    Option String :=
  (p.ip_ranges.find? (fun kv => kv.1 == range_name)).map (fun kv => kv.2.1)

/-- Embeds `AddressPool.ip_range_end(range_name)`. -/
def AddressPool.ip_range_end (p : AddressPool) (range_name : String) :
    Option String :=
  (p.ip_ranges.find? (fun kv => kv.1 == range_name)).map (fun kv => kv.2.2)

/-- Embeds `AddressPool.ip_range_set(range_name, start, end)`: raises `DevopsError`
(returned as `some message`, state unchanged) when the name exists, else
stores the range and saves.  The pair is (raised error, state after). -/
def AddressPool.ip_range_set (p : AddressPool) (range_name : String)
    (range_first range_last : String) : Option String × AddressPool :=
  if p.ip_ranges.any (fun kv => kv.1 == range_name) then
    (some ("Setting IP range \x27" ++ range_name ++ "\x27 for address pool \x27"
      ++ p.name ++ "\x27 failed: range already exists"), p)
  else
    (none, { p with ip_ranges := p.ip_ranges ++ [(range_name, (range_first, range_last))] })

/-- Embeds `AddressPool.next_ip()`: scan `iter_hosts`, skip addresses below index 2
or above index -2 of the subnet and addresses with an existing `Address`
row in this pool (`used`), return the first remaining one; `none` embeds
the `DevopsError` "No more free addresses in the address pool ...". -/
def AddressPool.next_ip (p : AddressPool) (used : List Nat) : Option Nat :=
  p.net.iter_hosts.find? (fun ip =>
    !(decide (ip < p.net.first + 2) || decide (p.net.first + p.net.size - 2 < ip))
      && !(used.contains ip))

/-- Embeds `Interface.add_address` repeated: `n` successive `next_ip` calls, each
followed by `Address.objects.create` of the returned address (so later
calls see it as used); stops early if the pool is exhausted. -/
def AddressPool.next_ip_seq (p : AddressPool) : Nat → List Nat → List Nat
  | 0, _ => []
  | n + 1, used =>
    match p.next_ip used with
    | none => []
    | some ip => ip :: p.next_ip_seq n (used ++ [ip])

/-- Outcome of one durable `objects.create` attempt inside
`transaction.atomic`: success, `IntegrityError` whose text contains
`name` (the (name, environment) uniqueness constraint), or another
`IntegrityError` (the `net` uniqueness constraint). -/
inductive CreateResult
  | ok
  | nameConflict
  | subnetConflict
deriving DecidableEq, Repr

/-- The exceptions `address_pool_create` can propagate. -/
inductive CreateError
  | nameExists (name : String)
  | noAvailable (name : String)
  | indexError
deriving DecidableEq, Repr

/-- The `DevopsError` message attached to each propagated exception
(`indexError` is the netaddr `IndexError`, message owned by netaddr). -/
def CreateError.message : CreateError → String
  | .nameExists n => "AddressPool with name \"" ++ n ++ "\" already exists"
  | .noAvailable n => "There is no network pool available for creating address pool " ++ n
  | .indexError => "index out range for address"

/-- Embeds `AddressPool._safe_create_network(name, pool, environment)`: walk the
candidate networks; skip any whose `net` string already has a row
(`existing`); otherwise attempt the durable create: on success return the
claimed network, on an `IntegrityError` mentioning `name` raise at once,
on any other `IntegrityError` continue with the next candidate; raise
`noAvailable` when the candidates run out.  The second component records
the candidates on which a durable create was attempted. -/
def AddressPool._safe_create_network (name : String) (pool : List IPNetwork)
    (existing : List IPNetwork) (attempt : IPNetwork → CreateResult) :
    Except CreateError IPNetwork × List IPNetwork :=
  match pool with
  | [] => (.error (.noAvailable name), [])
  | n :: rest =>
    if existing.contains n then
      AddressPool._safe_create_network name rest existing attempt
    else
      match attempt n with
      | .ok => (.ok n, [n])
      | .nameConflict => (.error (.nameExists name), [n])
      | .subnetConflict =>
        let r := AddressPool._safe_create_network name rest existing attempt
        (r.1, n :: r.2)

/-- A caller-supplied offset for `ip_reserved` / `ip_ranges`: a Python
`int` index, or any other value (a literal address string). -/
inductive IpParam
  | idx (i : Int)
  | lit (s : String)
deriving DecidableEq, Repr

/-- Embeds `_relative_to_ip(ip_network, ip_id)` (local to `address_pool_create`):
an `int` is used as an index into the network (`IndexError` = `none` when
out of range), anything else is returned as `str(ip_id)` unchanged. -/
def _relative_to_ip (ip_network : IPNetwork) (ip_id : IpParam) : Option String :=
  match ip_id with
  | .idx i => (ip_network.getitem i).map ipv4Str
  | .lit s => some s

/-- The `ip_reserved` / `ip_ranges` entries of the caller `params`
mapping (insertion-ordered dicts as association lists). -/
structure PoolParams where
  ip_reserved : List (String × IpParam)
  ip_ranges : List (String × (IpParam × IpParam))
deriving DecidableEq, Repr

/-- The `ip_reserved` resolution loop of `address_pool_create`: each value
replaced by `_relative_to_ip`; `none` when some entry raises `IndexError`. -/
def resolveReserved (ip_network : IPNetwork) :
    List (String × IpParam) → Option (List (String × String))
  | [] => some []
  | (k, v) :: rest =>
    match _relative_to_ip ip_network v with
    | none => none
    | some ip => (resolveReserved ip_network rest).map (fun r => (k, ip) :: r)

/-- The `ip_ranges` resolution loop of `address_pool_create`: both endpoints
of each value replaced by `_relative_to_ip`. -/
def resolveRanges (ip_network : IPNetwork) :
    List (String × (IpParam × IpParam)) → Option (List (String × (String × String)))
  | [] => some []
  | (k, (a, b)) :: rest =>
    match _relative_to_ip ip_network a, _relative_to_ip ip_network b with
    | some ipa, some ipb =>
      (resolveRanges ip_network rest).map (fun r => (k, (ipa, ipb)) :: r)
    | _, _ => none

/-- Embeds `AddressPool.address_pool_create(name, environment, pool, **params)`.
`store` is the pool table of the durable store, embedded as the (name, net)
rows present; a successful `objects.create` appends a row, a failed one
(inside `transaction.atomic`) appends nothing.  After a successful claim
the reserved/range offsets are resolved; the resolved strings are written
both into the `params` dicts of the caller (in-place Python mutation: on
success the third component is what the mapping of the caller holds after the
call) and into the pool object, which is then saved.  An `IndexError`
during resolution propagates after the row was already created. -/
def AddressPool.address_pool_create (name : String) (pool : List IPNetwork)
    (existing : List IPNetwork) (attempt : IPNetwork → CreateResult)
    (params : PoolParams) (store : List (String × IPNetwork)) :
    Except CreateError AddressPool × List (String × IPNetwork) × PoolParams :=
  match (AddressPool._safe_create_network name pool existing attempt).1 with
  | .error e => (.error e, store, params)
  | .ok net =>
    let store1 := store ++ [(name, net)]
    match resolveReserved net params.ip_reserved, resolveRanges net params.ip_ranges with
    | some res, some rans =>
      (.ok { name := name, net := net, ip_reserved := res, ip_ranges := rans },
       store1,
       { ip_reserved := res.map (fun kv => (kv.1, IpParam.lit kv.2)),
         ip_ranges := rans.map (fun kv => (kv.1, (IpParam.lit kv.2.1, IpParam.lit kv.2.2))) })
    | _, _ => (.error .indexError, store1, params)


/-- A caller-supplied offset is valid for subnet `n` when an integer index
is within `[-size, size)` and a literal is an address of `n`. -/
def IpParam.validFor (n : IPNetwork) : IpParam → Prop
  | .idx i => -(n.size : Int) ≤ i ∧ i < (n.size : Int)
  | .lit s => n.memStr s = true

/-- Every stored reserved value and range endpoint of the pool is an
address of its claimed subnet. -/
def poolWithinSubnet (ap : AddressPool) : Prop :=
  (∀ kv ∈ ap.ip_reserved, ap.net.memStr kv.2 = true)
  ∧ (∀ kv ∈ ap.ip_ranges,
      ap.net.memStr kv.2.1 = true ∧ ap.net.memStr kv.2.2 = true)

/-! Helper lemmas -/

/-- Every error `_safe_create_network` propagates is the name-conflict
`DevopsError` or the exhaustion `DevopsError`; the subnet-uniqueness
`IntegrityError` is consumed by the loop and never escapes. -/
theorem safe_create_error_shape (name : String) (pool : List IPNetwork) :
    ∀ (existing : List IPNetwork) (attempt : IPNetwork → CreateResult)
      (e : CreateError),
      (AddressPool._safe_create_network name pool existing attempt).1 = .error e →
      e = .nameExists name ∨ e = .noAvailable name := by
  induction pool with
  | nil =>
    intro existing attempt e h
    unfold AddressPool._safe_create_network at h
    simp at h
    exact Or.inr h.symm
  | cons n rest ih =>
    intro existing attempt e h
    unfold AddressPool._safe_create_network at h
    by_cases hc : n ∈ existing
    · simp [hc] at h
      exact ih existing attempt e h
    · cases hat : attempt n with
      | ok => simp [hc, hat] at h
      | nameConflict =>
        simp [hc, hat] at h
        exact Or.inl h.symm
      | subnetConflict =>
        simp [hc, hat] at h
        exact ih existing attempt e h

/-! Claim C3 -/

/-- C3: when the durable create of a candidate subnet fails with a name
conflict, `_safe_create_network` aborts at once with the fatal
pool-name-already-in-use `DevopsError`, attempting no further candidate
(the attempt trace is just that candidate, whatever the remaining
candidates are). -/
theorem claim_C3_name_conflict_fatal (name : String) (c : IPNetwork)
    (rest existing : List IPNetwork) (attempt : IPNetwork → CreateResult)
    (h1 : c ∉ existing) (h2 : attempt c = .nameConflict) :
    AddressPool._safe_create_network name (c :: rest) existing attempt
      = (.error (.nameExists name), [c])
    ∧ (CreateError.nameExists name).message
      = "AddressPool with name \"" ++ name ++ "\" already exists" := by
  refine ⟨?_, rfl⟩
  unfold AddressPool._safe_create_network
  simp [h1, h2]

/-- Witness for C3 at a concrete input. -/
theorem claim_C3_witness :
    AddressPool._safe_create_network "foo" [⟨0, 24⟩, ⟨256, 24⟩] []
        (fun _ => .nameConflict)
      = (.error (.nameExists "foo"), [⟨0, 24⟩])
    ∧ (CreateError.nameExists "foo").message
      = "AddressPool with name \"foo\" already exists" :=
  claim_C3_name_conflict_fatal "foo" ⟨0, 24⟩ [⟨256, 24⟩] []
    (fun _ => .nameConflict) (by decide) rfl

/-! Claim C4 -/

/-- C4: when the durable create of a candidate fails with the
subnet-uniqueness conflict, the coordinator discards that candidate and
continues with the next candidates of the same enumeration (the result is
exactly the run on the remaining candidates, with the failed candidate
merely prepended to the attempt trace); and the subnet conflict is never
surfaced: every propagated error is the name-conflict or the exhaustion
error. -/
theorem claim_C4_subnet_conflict_continue (name : String) (c : IPNetwork)
    (rest existing : List IPNetwork) (attempt : IPNetwork → CreateResult)
    (h1 : c ∉ existing) (h2 : attempt c = .subnetConflict) :
    AddressPool._safe_create_network name (c :: rest) existing attempt
      = ((AddressPool._safe_create_network name rest existing attempt).1,
         c :: (AddressPool._safe_create_network name rest existing attempt).2)
    ∧ ∀ (pool2 existing2 : List IPNetwork) (attempt2 : IPNetwork → CreateResult)
        (e : CreateError),
        (AddressPool._safe_create_network name pool2 existing2 attempt2).1
          = .error e →
        e = .nameExists name ∨ e = .noAvailable name := by
  constructor
  · conv_lhs => unfold AddressPool._safe_create_network
    simp [h1, h2]
  · exact fun pool2 existing2 attempt2 e h =>
      safe_create_error_shape name pool2 existing2 attempt2 e h

/-- Witness for C4 at a concrete input. -/
theorem claim_C4_witness :
    AddressPool._safe_create_network "bar" [⟨0, 24⟩, ⟨256, 24⟩] []
        (fun _ => .subnetConflict)
      = ((AddressPool._safe_create_network "bar" [⟨256, 24⟩] []
            (fun _ => .subnetConflict)).1,
         ⟨0, 24⟩ :: (AddressPool._safe_create_network "bar" [⟨256, 24⟩] []
            (fun _ => .subnetConflict)).2)
    ∧ ∀ (pool2 existing2 : List IPNetwork) (attempt2 : IPNetwork → CreateResult)
        (e : CreateError),
        (AddressPool._safe_create_network "bar" pool2 existing2 attempt2).1
          = .error e →
        e = .nameExists "bar" ∨ e = .noAvailable "bar" :=
  claim_C4_subnet_conflict_continue "bar" ⟨0, 24⟩ [⟨256, 24⟩] []
    (fun _ => .subnetConflict) (by decide) rfl

/-! Claim C7 -/

/-- C7 counterexample: exhausting the enumeration for target prefix 24 over
supernet 10.1.0.0/22 and for target prefix 26 over supernet 192.168.0.0/24
raises the same `DevopsError`, whose message names only the pool name —
it does not name the requested prefix or the candidate supernets. -/
theorem claim_C7_counterexample :
    (AddressPool._safe_create_network "foo"
        (IpNetworksPool.enumerate [⟨167837696, 22⟩] 24 []) []
        (fun _ => .subnetConflict)).1 = .error (.noAvailable "foo")
    ∧ (AddressPool._safe_create_network "foo"
        (IpNetworksPool.enumerate [⟨3232235520, 24⟩] 26 []) []
        (fun _ => .subnetConflict)).1 = .error (.noAvailable "foo")
    ∧ (CreateError.noAvailable "foo").message
      = "There is no network pool available for creating address pool foo" :=
  ⟨rfl, rfl, rfl⟩

/-- C7 amended: when every candidate is either already present or loses the
durable-create race, the coordinator fails with the no-available-subnet
`DevopsError`; its diagnostic names the requested pool name (and only
that — not the prefix or supernets). -/
theorem claim_C7_no_available (name : String) (pool : List IPNetwork) :
    ∀ (existing : List IPNetwork) (attempt : IPNetwork → CreateResult),
      (∀ c ∈ pool, c ∈ existing ∨ attempt c = .subnetConflict) →
      (AddressPool._safe_create_network name pool existing attempt).1
        = .error (.noAvailable name)
      ∧ (CreateError.noAvailable name).message
        = "There is no network pool available for creating address pool "
            ++ name := by
  induction pool with
  | nil => exact fun existing attempt _ => ⟨rfl, rfl⟩
  | cons n rest ih =>
    intro existing attempt h
    refine ⟨?_, rfl⟩
    unfold AddressPool._safe_create_network
    have hrest := (ih existing attempt
      (fun c hcc => h c (List.mem_cons_of_mem n hcc))).1
    rcases h n (List.mem_cons_self n rest) with hc | hat
    · simp [hc]
      exact hrest
    · by_cases hc : n ∈ existing
      · simp [hc]
        exact hrest
      · simp [hc, hat]
        exact hrest

/-- Witness for the amended C7 theorem at a concrete input. -/
theorem claim_C7_witness :
    (AddressPool._safe_create_network "baz" [⟨0, 24⟩] []
        (fun _ => .subnetConflict)).1 = .error (.noAvailable "baz")
    ∧ (CreateError.noAvailable "baz").message
      = "There is no network pool available for creating address pool baz" :=
  claim_C7_no_available "baz" [⟨0, 24⟩] [] (fun _ => .subnetConflict)
    (fun _ _ => Or.inr rfl)

/-! Claim C8 -/

/-- C8 counterexample: a pool creation over 172.0.0.0/24 whose `ip_reserved`
offset 1000 is out of range fails (netaddr `IndexError`) *after* the
durable claim succeeded, leaving the created Address Pool row in the
store — an error raised before `address_pool_create` returns that does
leave partial state behind. -/
theorem claim_C8_counterexample :
    AddressPool.address_pool_create "p1" [⟨2885681152, 24⟩] [] (fun _ => .ok)
        { ip_reserved := [("gateway", .idx 1000)], ip_ranges := [] } []
      = (.error .indexError, [("p1", ⟨2885681152, 24⟩)],
         { ip_reserved := [("gateway", .idx 1000)], ip_ranges := [] })
    ∧ [("p1", (⟨2885681152, 24⟩ : IPNetwork))]
        ≠ ([] : List (String × IPNetwork)) :=
  ⟨rfl, by decide⟩

/-- C8 amended: when the durable claim itself fails (any error raised by
`_safe_create_network`), no partial state is left behind: the store and
the caller params are returned unchanged. -/
theorem claim_C8_claim_failure_no_orphan (name : String)
    (pool existing : List IPNetwork) (attempt : IPNetwork → CreateResult)
    (params : PoolParams) (store : List (String × IPNetwork)) (e : CreateError)
    (h : (AddressPool._safe_create_network name pool existing attempt).1
      = .error e) :
    AddressPool.address_pool_create name pool existing attempt params store
      = (.error e, store, params) := by
  unfold AddressPool.address_pool_create
  rw [h]

/-- Witness for the amended C8 theorem at a concrete input. -/
theorem claim_C8_witness :
    AddressPool.address_pool_create "p2" [] [] (fun _ => .ok)
        { ip_reserved := [], ip_ranges := [] } []
      = (.error (.noAvailable "p2"), [], { ip_reserved := [], ip_ranges := [] }) :=
  claim_C8_claim_failure_no_orphan "p2" [] [] (fun _ => .ok)
    { ip_reserved := [], ip_ranges := [] } [] (.noAvailable "p2") rfl

/-! Claim C6 -/

/-- C6: a fresh range name is stored; calling `ip_range_set` again with the
same name raises the duplicate-range `DevopsError`, and the failed call
leaves the pool unmodified: the previously stored range start and end values
are unchanged. -/
theorem claim_C6_duplicate_range (p : AddressPool) (rn s1 e1 s2 e2 : String)
    (h : p.ip_ranges.any (fun kv => kv.1 == rn) = false) :
    p.ip_range_set rn s1 e1
      = (none, { p with ip_ranges := p.ip_ranges ++ [(rn, (s1, e1))] })
    ∧ ((p.ip_range_set rn s1 e1).2.ip_range_set rn s2 e2).1
        = some ("Setting IP range \x27" ++ rn ++ "\x27 for address pool \x27"
            ++ p.name ++ "\x27 failed: range already exists")
    ∧ ((p.ip_range_set rn s1 e1).2.ip_range_set rn s2 e2).2
        = (p.ip_range_set rn s1 e1).2
    ∧ ((p.ip_range_set rn s1 e1).2.ip_range_set rn s2 e2).2.ip_range_start rn
        = some s1
    ∧ ((p.ip_range_set rn s1 e1).2.ip_range_set rn s2 e2).2.ip_range_end rn
        = some e1 := by
  have h1 : p.ip_range_set rn s1 e1
      = (none, { p with ip_ranges := p.ip_ranges ++ [(rn, (s1, e1))] }) := by
    simp [AddressPool.ip_range_set, h]
  have hany2 : ({ p with ip_ranges := p.ip_ranges ++ [(rn, (s1, e1))] }
      : AddressPool).ip_ranges.any (fun kv => kv.1 == rn) = true := by
    simp [List.any_append]
  have hfind : p.ip_ranges.find? (fun kv => kv.1 == rn) = none := by
    rw [List.find?_eq_none]
    intro x hx
    have := (List.any_eq_false.mp h) x hx
    simpa using this
  refine ⟨h1, ?_, ?_, ?_, ?_⟩
  · rw [h1]
    simp [AddressPool.ip_range_set, hany2]
  · rw [h1]
    simp [AddressPool.ip_range_set, hany2]
  · rw [h1]
    simp [AddressPool.ip_range_set, hany2, AddressPool.ip_range_start,
      List.find?_append, hfind]
  · rw [h1]
    simp [AddressPool.ip_range_set, hany2, AddressPool.ip_range_end,
      List.find?_append, hfind]

/-- Witness for C6 at a concrete input. -/
theorem claim_C6_witness :
    (AddressPool.ip_range_set ⟨"pool1", ⟨2885681152, 24⟩, [], []⟩ "default"
        "172.0.0.2" "172.0.0.254")
      = (none, ⟨"pool1", ⟨2885681152, 24⟩,
          [], [("default", ("172.0.0.2", "172.0.0.254"))]⟩)
    ∧ ((AddressPool.ip_range_set ⟨"pool1", ⟨2885681152, 24⟩, [], []⟩ "default"
        "172.0.0.2" "172.0.0.254").2.ip_range_set "default" "10.0.0.1"
          "10.0.0.2").1
        = some ("Setting IP range \x27default\x27 for address pool \x27pool1\x27"
            ++ " failed: range already exists")
    ∧ ((AddressPool.ip_range_set ⟨"pool1", ⟨2885681152, 24⟩, [], []⟩ "default"
        "172.0.0.2" "172.0.0.254").2.ip_range_set "default" "10.0.0.1"
          "10.0.0.2").2
        = (AddressPool.ip_range_set ⟨"pool1", ⟨2885681152, 24⟩, [], []⟩ "default"
            "172.0.0.2" "172.0.0.254").2
    ∧ ((AddressPool.ip_range_set ⟨"pool1", ⟨2885681152, 24⟩, [], []⟩ "default"
        "172.0.0.2" "172.0.0.254").2.ip_range_set "default" "10.0.0.1"
          "10.0.0.2").2.ip_range_start "default"
        = some "172.0.0.2"
    ∧ ((AddressPool.ip_range_set ⟨"pool1", ⟨2885681152, 24⟩, [], []⟩ "default"
        "172.0.0.2" "172.0.0.254").2.ip_range_set "default" "10.0.0.1"
          "10.0.0.2").2.ip_range_end "default"
        = some "172.0.0.254" :=
  claim_C6_duplicate_range ⟨"pool1", ⟨2885681152, 24⟩, [], []⟩ "default"
    "172.0.0.2" "172.0.0.254" "10.0.0.1" "10.0.0.2" rfl

/-! Claim C5 -/

/-- Looking up a key in the resolved `ip_reserved` list returns exactly the
`_relative_to_ip` resolution of the first entry with that key in the
caller params. -/
theorem resolveReserved_find? (net : IPNetwork) (l : List (String × IpParam)) :
    ∀ res, resolveReserved net l = some res →
    ∀ k : String,
      (res.find? (fun kv => kv.1 == k)).map (fun kv => kv.2)
        = (l.find? (fun kv => kv.1 == k)).bind
            (fun kv => _relative_to_ip net kv.2) := by
  induction l with
  | nil =>
    intro res h k
    simp [resolveReserved] at h
    subst h
    simp
  | cons kv rest ih =>
    intro res h k
    obtain ⟨k0, v0⟩ := kv
    unfold resolveReserved at h
    cases hr : _relative_to_ip net v0 with
    | none => rw [hr] at h; cases h
    | some ip =>
      rw [hr] at h
      cases hrest : resolveReserved net rest with
      | none => rw [hrest] at h; cases h
      | some res0 =>
        rw [hrest] at h
        simp at h
        subst h
        by_cases hk : k0 == k
        · rw [List.find?_cons_of_pos _ (by simpa using hk),
            List.find?_cons_of_pos _ (by simpa using hk)]
          simp [hr]
        · rw [List.find?_cons_of_neg _ (by simpa using hk),
            List.find?_cons_of_neg _ (by simpa using hk)]
          exact ih res0 hrest k

/-- The shape of a successful `address_pool_create` run: the claimed subnet
came from `_safe_create_network`, the stored `ip_reserved`/`ip_ranges` are
the resolved params, a row was appended to the store, and the caller
params were overwritten with the resolved literal addresses. -/
theorem address_pool_create_ok (name : String) (pool existing : List IPNetwork)
    (attempt : IPNetwork → CreateResult) (params : PoolParams)
    (store : List (String × IPNetwork)) (ap : AddressPool)
    (st2 : List (String × IPNetwork)) (pr2 : PoolParams)
    (h : AddressPool.address_pool_create name pool existing attempt params store
      = (.ok ap, st2, pr2)) :
    ∃ res rans,
      (AddressPool._safe_create_network name pool existing attempt).1
          = .ok ap.net
      ∧ resolveReserved ap.net params.ip_reserved = some res
      ∧ resolveRanges ap.net params.ip_ranges = some rans
      ∧ ap = ⟨name, ap.net, res, rans⟩
      ∧ st2 = store ++ [(name, ap.net)]
      ∧ pr2 = { ip_reserved := res.map (fun kv => (kv.1, IpParam.lit kv.2)),
                ip_ranges := rans.map (fun kv =>
                  (kv.1, (IpParam.lit kv.2.1, IpParam.lit kv.2.2))) } := by
  unfold AddressPool.address_pool_create at h
  cases hsc : (AddressPool._safe_create_network name pool existing attempt).1 with
  | error e => rw [hsc] at h; cases h
  | ok net =>
    rw [hsc] at h
    cases hres : resolveReserved net params.ip_reserved with
    | none => simp [hres] at h
    | some res =>
      cases hran : resolveRanges net params.ip_ranges with
      | none => simp [hres, hran] at h
      | some rans =>
        simp [hres, hran] at h
        obtain ⟨hap, hst, hpr⟩ := h
        refine ⟨res, rans, ?_, ?_, ?_, ?_, ?_, ?_⟩
        · rw [← hap]
        · rw [← hap]; exact hres
        · rw [← hap]; exact hran
        · rw [← hap]
        · rw [← hst, ← hap]
        · rw [← hpr]

/-- C5: after a successful `address_pool_create`, each reserved name reads
back (via `get_ip`) exactly the one-time `_relative_to_ip` resolution of
the offset the caller supplied — an integer offset `i` gives the subnet
address at index `i` (negative counting from the end), a non-integer
offset is stored literally unchanged; later reads return the stored
literal without ever consulting the subnet again (replacing the subnet
of the pool does not change what `get_ip` returns); concretely, a pool claiming
172.0.0.0/24 with `ip_reserved = {l2_network_device: 1}` yields
`get_ip(l2_network_device) = 172.0.0.1`. -/
theorem claim_C5_offset_resolution (name : String)
    (pool existing : List IPNetwork) (attempt : IPNetwork → CreateResult)
    (params : PoolParams) (store : List (String × IPNetwork))
    (ap : AddressPool) (st2 : List (String × IPNetwork)) (pr2 : PoolParams)
    (h : AddressPool.address_pool_create name pool existing attempt params store
      = (.ok ap, st2, pr2)) :
    (∀ k : String, ap.get_ip k
        = (params.ip_reserved.find? (fun kv => kv.1 == k)).bind
            (fun kv => _relative_to_ip ap.net kv.2))
    ∧ (∀ (k : String) (i : Int),
        params.ip_reserved.find? (fun kv => kv.1 == k) = some (k, .idx i) →
        ap.get_ip k = (ap.net.getitem i).map ipv4Str)
    ∧ (∀ (k s : String),
        params.ip_reserved.find? (fun kv => kv.1 == k) = some (k, .lit s) →
        ap.get_ip k = some s)
    ∧ (∀ (q : AddressPool) (k : String) (m : IPNetwork),
        AddressPool.get_ip { q with net := m } k = q.get_ip k)
    ∧ ((AddressPool.address_pool_create "pool1" [⟨2885681152, 24⟩] []
          (fun _ => .ok)
          { ip_reserved := [("l2_network_device", .idx 1)], ip_ranges := [] }
          []).1.map (fun x => x.get_ip "l2_network_device"))
        = .ok (some "172.0.0.1") := by
  obtain ⟨res, rans, _, hres, _, hap, _, _⟩ :=
    address_pool_create_ok name pool existing attempt params store ap st2 pr2 h
  have hmain : ∀ k : String, ap.get_ip k
      = (params.ip_reserved.find? (fun kv => kv.1 == k)).bind
          (fun kv => _relative_to_ip ap.net kv.2) := by
    intro k
    have := resolveReserved_find? ap.net params.ip_reserved res hres k
    rw [AddressPool.get_ip]
    rw [show ap.ip_reserved = res from by rw [hap]]
    exact this
  refine ⟨hmain, ?_, ?_, ?_, rfl⟩
  · intro k i hk
    rw [hmain k, hk]
    rfl
  · intro k s hk
    rw [hmain k, hk]
    rfl
  · intro q k m
    rw [AddressPool.get_ip, AddressPool.get_ip]

/-- Witness for C5 at a concrete input. -/
theorem claim_C5_witness :
    (∀ k : String,
      AddressPool.get_ip
          ⟨"pool1", ⟨2885681152, 24⟩, [("l2_network_device", "172.0.0.1")], []⟩ k
        = (([("l2_network_device", IpParam.idx 1)].find?
              (fun kv => kv.1 == k)).bind
            (fun kv => _relative_to_ip ⟨2885681152, 24⟩ kv.2)))
    ∧ (∀ (k : String) (i : Int),
        [("l2_network_device", IpParam.idx 1)].find? (fun kv => kv.1 == k)
          = some (k, .idx i) →
        AddressPool.get_ip
            ⟨"pool1", ⟨2885681152, 24⟩, [("l2_network_device", "172.0.0.1")], []⟩ k
          = ((⟨2885681152, 24⟩ : IPNetwork).getitem i).map ipv4Str)
    ∧ (∀ (k s : String),
        [("l2_network_device", IpParam.idx 1)].find? (fun kv => kv.1 == k)
          = some (k, .lit s) →
        AddressPool.get_ip
            ⟨"pool1", ⟨2885681152, 24⟩, [("l2_network_device", "172.0.0.1")], []⟩ k
          = some s)
    ∧ (∀ (q : AddressPool) (k : String) (m : IPNetwork),
        AddressPool.get_ip { q with net := m } k = q.get_ip k)
    ∧ ((AddressPool.address_pool_create "pool1" [⟨2885681152, 24⟩] []
          (fun _ => .ok)
          { ip_reserved := [("l2_network_device", .idx 1)], ip_ranges := [] }
          []).1.map (fun x => x.get_ip "l2_network_device"))
        = .ok (some "172.0.0.1") :=
  claim_C5_offset_resolution "pool1" [⟨2885681152, 24⟩] [] (fun _ => .ok)
    { ip_reserved := [("l2_network_device", .idx 1)], ip_ranges := [] } []
    ⟨"pool1", ⟨2885681152, 24⟩, [("l2_network_device", "172.0.0.1")], []⟩
    [("pool1", ⟨2885681152, 24⟩)]
    { ip_reserved := [("l2_network_device", IpParam.lit "172.0.0.1")],
      ip_ranges := [] }
    rfl

/-! Claim C10 -/

/-- Every entry of the caller `ip_reserved` params is resolved and appears,
as a literal, in the resolved list. -/
theorem resolveReserved_mem (net : IPNetwork) (l : List (String × IpParam)) :
    ∀ res, resolveReserved net l = some res →
    ∀ kv ∈ l, ∃ s, _relative_to_ip net kv.2 = some s ∧ (kv.1, s) ∈ res := by
  induction l with
  | nil => intro res _ kv hkv; cases hkv
  | cons kv0 rest ih =>
    intro res h kv hkv
    obtain ⟨k0, v0⟩ := kv0
    unfold resolveReserved at h
    cases hr : _relative_to_ip net v0 with
    | none => rw [hr] at h; cases h
    | some ip =>
      rw [hr] at h
      cases hrest : resolveReserved net rest with
      | none => rw [hrest] at h; cases h
      | some res0 =>
        rw [hrest] at h
        simp at h
        subst h
        rcases List.mem_cons.mp hkv with heq | htail
        · subst heq
          exact ⟨ip, hr, List.mem_cons_self _ _⟩
        · obtain ⟨s, hs, hmem⟩ := ih res0 hrest kv htail
          exact ⟨s, hs, List.mem_cons_of_mem _ hmem⟩

/-- Every entry of the caller `ip_ranges` params is resolved at both
endpoints and appears, as a pair of literals, in the resolved list. -/
theorem resolveRanges_mem (net : IPNetwork)
    (l : List (String × (IpParam × IpParam))) :
    ∀ rans, resolveRanges net l = some rans →
    ∀ kv ∈ l, ∃ sa sb, _relative_to_ip net kv.2.1 = some sa
      ∧ _relative_to_ip net kv.2.2 = some sb ∧ (kv.1, (sa, sb)) ∈ rans := by
  induction l with
  | nil => intro rans _ kv hkv; cases hkv
  | cons kv0 rest ih =>
    intro rans h kv hkv
    obtain ⟨k0, va, vb⟩ := kv0
    unfold resolveRanges at h
    cases hra : _relative_to_ip net va with
    | none => rw [hra] at h; cases h
    | some ipa =>
      cases hrb : _relative_to_ip net vb with
      | none => rw [hra, hrb] at h; cases h
      | some ipb =>
        rw [hra, hrb] at h
        cases hrest : resolveRanges net rest with
        | none => rw [hrest] at h; cases h
        | some rans0 =>
          rw [hrest] at h
          simp at h
          subst h
          rcases List.mem_cons.mp hkv with heq | htail
          · subst heq
            exact ⟨ipa, ipb, hra, hrb, List.mem_cons_self _ _⟩
          · obtain ⟨sa, sb, hsa, hsb, hmem⟩ := ih rans0 hrest kv htail
            exact ⟨sa, sb, hsa, hsb, List.mem_cons_of_mem _ hmem⟩

/-- C10: a successful `address_pool_create` mutates the caller-supplied
params mapping in place: afterwards its `ip_reserved` and `ip_ranges`
hold exactly the resolved absolute address strings of the pool (as literals);
every offset the caller passed has been overwritten with its resolution,
and no integer-index offset survives anywhere in the mapping. -/
theorem claim_C10_params_mutated (name : String)
    (pool existing : List IPNetwork) (attempt : IPNetwork → CreateResult)
    (params : PoolParams) (store : List (String × IPNetwork))
    (ap : AddressPool) (st2 : List (String × IPNetwork)) (pr2 : PoolParams)
    (h : AddressPool.address_pool_create name pool existing attempt params store
      = (.ok ap, st2, pr2)) :
    pr2.ip_reserved = ap.ip_reserved.map (fun kv => (kv.1, IpParam.lit kv.2))
    ∧ pr2.ip_ranges = ap.ip_ranges.map (fun kv =>
        (kv.1, (IpParam.lit kv.2.1, IpParam.lit kv.2.2)))
    ∧ (∀ kv ∈ params.ip_reserved, ∃ s, _relative_to_ip ap.net kv.2 = some s
        ∧ (kv.1, IpParam.lit s) ∈ pr2.ip_reserved)
    ∧ (∀ kv ∈ params.ip_ranges, ∃ sa sb,
        _relative_to_ip ap.net kv.2.1 = some sa
        ∧ _relative_to_ip ap.net kv.2.2 = some sb
        ∧ (kv.1, (IpParam.lit sa, IpParam.lit sb)) ∈ pr2.ip_ranges)
    ∧ (∀ (k : String) (i : Int), (k, IpParam.idx i) ∉ pr2.ip_reserved) := by
  obtain ⟨res, rans, _, hres, hran, hap, _, hpr⟩ :=
    address_pool_create_ok name pool existing attempt params store ap st2 pr2 h
  have hres_eq : ap.ip_reserved = res := by rw [hap]
  have hran_eq : ap.ip_ranges = rans := by rw [hap]
  refine ⟨?_, ?_, ?_, ?_, ?_⟩
  · rw [hpr, hres_eq]
  · rw [hpr, hran_eq]
  · intro kv hkv
    obtain ⟨s, hs, hmem⟩ := resolveReserved_mem ap.net params.ip_reserved res hres kv hkv
    refine ⟨s, hs, ?_⟩
    rw [hpr]
    simpa using List.mem_map_of_mem (fun kv => (kv.1, IpParam.lit kv.2)) hmem
  · intro kv hkv
    obtain ⟨sa, sb, hsa, hsb, hmem⟩ :=
      resolveRanges_mem ap.net params.ip_ranges rans hran kv hkv
    refine ⟨sa, sb, hsa, hsb, ?_⟩
    rw [hpr]
    simpa using List.mem_map_of_mem
      (fun kv => (kv.1, (IpParam.lit kv.2.1, IpParam.lit kv.2.2))) hmem
  · intro k i hmem
    rw [hpr] at hmem
    simp at hmem

/-- Witness for C10 at a concrete input. -/
theorem claim_C10_witness :
    ({ ip_reserved := [("l2_network_device", IpParam.lit "10.2.0.1")],
       ip_ranges := [("default", (IpParam.lit "10.2.0.2", IpParam.lit "10.2.0.254"))] }
        : PoolParams).ip_reserved
      = (AddressPool.mk "p9" ⟨167903232, 24⟩
          [("l2_network_device", "10.2.0.1")]
          [("default", ("10.2.0.2", "10.2.0.254"))]).ip_reserved.map
            (fun kv => (kv.1, IpParam.lit kv.2))
    ∧ ({ ip_reserved := [("l2_network_device", IpParam.lit "10.2.0.1")],
         ip_ranges := [("default", (IpParam.lit "10.2.0.2", IpParam.lit "10.2.0.254"))] }
          : PoolParams).ip_ranges
        = (AddressPool.mk "p9" ⟨167903232, 24⟩
            [("l2_network_device", "10.2.0.1")]
            [("default", ("10.2.0.2", "10.2.0.254"))]).ip_ranges.map
              (fun kv => (kv.1, (IpParam.lit kv.2.1, IpParam.lit kv.2.2)))
    ∧ (∀ kv ∈ ([("l2_network_device", IpParam.idx 1)]
          : List (String × IpParam)), ∃ s,
        _relative_to_ip (AddressPool.mk "p9" ⟨167903232, 24⟩
            [("l2_network_device", "10.2.0.1")]
            [("default", ("10.2.0.2", "10.2.0.254"))]).net kv.2 = some s
        ∧ (kv.1, IpParam.lit s)
            ∈ ({ ip_reserved := [("l2_network_device", IpParam.lit "10.2.0.1")],
                 ip_ranges := [("default", (IpParam.lit "10.2.0.2", IpParam.lit "10.2.0.254"))] }
                : PoolParams).ip_reserved)
    ∧ (∀ kv ∈ ([("default", (IpParam.idx 2, IpParam.idx (-2)))]
          : List (String × (IpParam × IpParam))), ∃ sa sb,
        _relative_to_ip (AddressPool.mk "p9" ⟨167903232, 24⟩
            [("l2_network_device", "10.2.0.1")]
            [("default", ("10.2.0.2", "10.2.0.254"))]).net kv.2.1 = some sa
        ∧ _relative_to_ip (AddressPool.mk "p9" ⟨167903232, 24⟩
            [("l2_network_device", "10.2.0.1")]
            [("default", ("10.2.0.2", "10.2.0.254"))]).net kv.2.2 = some sb
        ∧ (kv.1, (IpParam.lit sa, IpParam.lit sb))
            ∈ ({ ip_reserved := [("l2_network_device", IpParam.lit "10.2.0.1")],
                 ip_ranges := [("default", (IpParam.lit "10.2.0.2", IpParam.lit "10.2.0.254"))] }
                : PoolParams).ip_ranges)
    ∧ (∀ (k : String) (i : Int), (k, IpParam.idx i)
        ∉ ({ ip_reserved := [("l2_network_device", IpParam.lit "10.2.0.1")],
             ip_ranges := [("default", (IpParam.lit "10.2.0.2", IpParam.lit "10.2.0.254"))] }
            : PoolParams).ip_reserved) :=
  claim_C10_params_mutated "p9" [⟨167903232, 24⟩] [] (fun _ => .ok)
    { ip_reserved := [("l2_network_device", IpParam.idx 1)],
      ip_ranges := [("default", (IpParam.idx 2, IpParam.idx (-2)))] } []
    (AddressPool.mk "p9" ⟨167903232, 24⟩
      [("l2_network_device", "10.2.0.1")]
      [("default", ("10.2.0.2", "10.2.0.254"))])
    [("p9", ⟨167903232, 24⟩)]
    { ip_reserved := [("l2_network_device", IpParam.lit "10.2.0.1")],
      ip_ranges := [("default", (IpParam.lit "10.2.0.2", IpParam.lit "10.2.0.254"))] }
    rfl

/-! Claim C9 -/

/-- C9 counterexample: creating a pool over 172.0.0.0/30 with the literal
reserved address 10.9.9.9 succeeds and stores that literal unvalidated;
the stored reserved value lies outside the claimed subnet, and
`ip_range_set` likewise stores an out-of-subnet endpoint unchanged. -/
theorem claim_C9_counterexample :
    ((AddressPool.address_pool_create "p3" [⟨2885681152, 30⟩] [] (fun _ => .ok)
        { ip_reserved := [("gateway", .lit "10.9.9.9")], ip_ranges := [] }
        []).1.map (fun ap => (ap.get_ip "gateway", ap.net.memStr "10.9.9.9")))
      = .ok (some "10.9.9.9", false)
    ∧ ((AddressPool.mk "p3" ⟨2885681152, 30⟩ [] []).ip_range_set "r"
        "10.9.9.9" "10.9.9.10").2.ip_range_start "r" = some "10.9.9.9"
    ∧ (⟨2885681152, 30⟩ : IPNetwork).memStr "10.9.9.9" = false :=
  ⟨rfl, rfl, rfl⟩

/-- A valid index resolves to an in-range offset from the network address. -/
theorem getitem_some_of_valid (n : IPNetwork) (i : Int)
    (h1 : -(n.size : Int) ≤ i) (h2 : i < (n.size : Int)) :
    ∃ k, k < n.size ∧ n.getitem i = some (n.first + k) := by
  unfold IPNetwork.getitem
  by_cases hi : i < 0
  · refine ⟨(i + n.size).toNat, ?_, ?_⟩
    · omega
    · simp only [hi, if_pos]
      rw [if_pos]
      omega
  · refine ⟨i.toNat, ?_, ?_⟩
    · omega
    · simp only [hi, if_neg, if_false]
      rw [if_pos]
      omega

/-- The rendering of any in-range offset is an address string of `n`. -/
theorem memStr_ipv4Str (n : IPNetwork) (k : Nat) (hk : k < n.size) :
    n.memStr (ipv4Str (n.first + k)) = true := by
  unfold IPNetwork.memStr
  have : ipv4Str (n.first + k)
      ∈ (List.range n.size).map (fun j => ipv4Str (n.first + j)) :=
    List.mem_map_of_mem _ (List.mem_range.mpr hk)
  simpa using this

/-- Resolving a valid offset yields an address string of the subnet. -/
theorem relative_valid_memStr (n : IPNetwork) (v : IpParam) (s : String)
    (hv : v.validFor n) (h : _relative_to_ip n v = some s) :
    n.memStr s = true := by
  cases v with
  | lit t =>
    simp [_relative_to_ip] at h
    subst h
    exact hv
  | idx i =>
    obtain ⟨h1, h2⟩ := hv
    obtain ⟨k, hk, hget⟩ := getitem_some_of_valid n i h1 h2
    simp [_relative_to_ip, hget] at h
    subst h
    exact memStr_ipv4Str n k hk

/-- Every entry of the resolved `ip_reserved` list came from resolving some
caller entry. -/
theorem resolveReserved_mem_rev (net : IPNetwork)
    (l : List (String × IpParam)) :
    ∀ res, resolveReserved net l = some res →
    ∀ kv ∈ res, ∃ v, (kv.1, v) ∈ l ∧ _relative_to_ip net v = some kv.2 := by
  induction l with
  | nil =>
    intro res h kv hkv
    simp [resolveReserved] at h
    subst h
    cases hkv
  | cons kv0 rest ih =>
    intro res h kv hkv
    obtain ⟨k0, v0⟩ := kv0
    unfold resolveReserved at h
    cases hr : _relative_to_ip net v0 with
    | none => rw [hr] at h; cases h
    | some ip =>
      rw [hr] at h
      cases hrest : resolveReserved net rest with
      | none => rw [hrest] at h; cases h
      | some res0 =>
        rw [hrest] at h
        simp at h
        subst h
        rcases List.mem_cons.mp hkv with heq | htail
        · subst heq
          exact ⟨v0, List.mem_cons_self _ _, hr⟩
        · obtain ⟨v, hvmem, hv⟩ := ih res0 hrest kv htail
          exact ⟨v, List.mem_cons_of_mem _ hvmem, hv⟩

/-- Every entry of the resolved `ip_ranges` list came from resolving some
caller entry at both endpoints. -/
theorem resolveRanges_mem_rev (net : IPNetwork)
    (l : List (String × (IpParam × IpParam))) :
    ∀ rans, resolveRanges net l = some rans →
    ∀ kv ∈ rans, ∃ va vb, (kv.1, (va, vb)) ∈ l
      ∧ _relative_to_ip net va = some kv.2.1
      ∧ _relative_to_ip net vb = some kv.2.2 := by
  induction l with
  | nil =>
    intro rans h kv hkv
    simp [resolveRanges] at h
    subst h
    cases hkv
  | cons kv0 rest ih =>
    intro rans h kv hkv
    obtain ⟨k0, va0, vb0⟩ := kv0
    unfold resolveRanges at h
    cases hra : _relative_to_ip net va0 with
    | none => rw [hra] at h; cases h
    | some ipa =>
      cases hrb : _relative_to_ip net vb0 with
      | none => rw [hra, hrb] at h; cases h
      | some ipb =>
        rw [hra, hrb] at h
        cases hrest : resolveRanges net rest with
        | none => rw [hrest] at h; cases h
        | some rans0 =>
          rw [hrest] at h
          simp at h
          subst h
          rcases List.mem_cons.mp hkv with heq | htail
          · subst heq
            exact ⟨va0, vb0, List.mem_cons_self _ _, hra, hrb⟩
          · obtain ⟨va, vb, hvmem, hva, hvb⟩ := ih rans0 hrest kv htail
            exact ⟨va, vb, List.mem_cons_of_mem _ hvmem, hva, hvb⟩

/-- C9 amended: pool creation establishes the within-subnet invariant
*provided* every caller-supplied offset is valid for the claimed subnet —
integer indices in range and literal addresses already inside it (the code
stores literals unvalidated, so out-of-subnet literals violate the
invariant, as the counterexample shows); `ip_range_set` preserves the
invariant whenever the endpoints it is given are addresses of the subnet,
both on success and on the duplicate-name failure. -/
theorem claim_C9_within_subnet (name : String)
    (pool existing : List IPNetwork) (attempt : IPNetwork → CreateResult)
    (params : PoolParams) (store : List (String × IPNetwork))
    (ap : AddressPool) (st2 : List (String × IPNetwork)) (pr2 : PoolParams)
    (h : AddressPool.address_pool_create name pool existing attempt params store
      = (.ok ap, st2, pr2))
    (hres : ∀ kv ∈ params.ip_reserved, IpParam.validFor ap.net kv.2)
    (hran : ∀ kv ∈ params.ip_ranges,
      IpParam.validFor ap.net kv.2.1 ∧ IpParam.validFor ap.net kv.2.2) :
    poolWithinSubnet ap
    ∧ (∀ (q : AddressPool) (rn s e : String), poolWithinSubnet q →
        q.net.memStr s = true → q.net.memStr e = true →
        poolWithinSubnet (q.ip_range_set rn s e).2) := by
  obtain ⟨res, rans, _, hresolve, hranges, hap, _, _⟩ :=
    address_pool_create_ok name pool existing attempt params store ap st2 pr2 h
  constructor
  · constructor
    · intro kv hkv
      rw [show ap.ip_reserved = res from by rw [hap]] at hkv
      obtain ⟨v, hvmem, hv⟩ :=
        resolveReserved_mem_rev ap.net params.ip_reserved res hresolve kv hkv
      exact relative_valid_memStr ap.net v kv.2 (hres (kv.1, v) hvmem) hv
    · intro kv hkv
      rw [show ap.ip_ranges = rans from by rw [hap]] at hkv
      obtain ⟨va, vb, hvmem, hva, hvb⟩ :=
        resolveRanges_mem_rev ap.net params.ip_ranges rans hranges kv hkv
      exact ⟨relative_valid_memStr ap.net va kv.2.1
          ((hran (kv.1, (va, vb)) hvmem).1) hva,
        relative_valid_memStr ap.net vb kv.2.2
          ((hran (kv.1, (va, vb)) hvmem).2) hvb⟩
  · intro q rn s e hq hs he
    unfold AddressPool.ip_range_set
    by_cases hdup : q.ip_ranges.any (fun kv => kv.1 == rn)
    · simp only [hdup, if_pos]
      exact hq
    · simp only [hdup, if_neg, if_false]
      constructor
      · intro kv hkv
        exact hq.1 kv hkv
      · intro kv hkv
        rcases List.mem_append.mp hkv with hold | hnew
        · exact hq.2 kv hold
        · simp at hnew
          subst hnew
          exact ⟨hs, he⟩

/-- Witness for the amended C9 theorem at a concrete input. -/
theorem claim_C9_witness :
    poolWithinSubnet
      (AddressPool.mk "p4" ⟨2885681152, 30⟩
        [("l2_network_device", "172.0.0.1")] [])
    ∧ (∀ (q : AddressPool) (rn s e : String), poolWithinSubnet q →
        q.net.memStr s = true → q.net.memStr e = true →
        poolWithinSubnet (q.ip_range_set rn s e).2) :=
  claim_C9_within_subnet "p4" [⟨2885681152, 30⟩] [] (fun _ => .ok)
    { ip_reserved := [("l2_network_device", IpParam.idx 1)], ip_ranges := [] }
    []
    (AddressPool.mk "p4" ⟨2885681152, 30⟩
      [("l2_network_device", "172.0.0.1")] [])
    [("p4", ⟨2885681152, 30⟩)]
    { ip_reserved := [("l2_network_device", IpParam.lit "172.0.0.1")],
      ip_ranges := [] }
    rfl
    (by
      intro kv hkv
      simp at hkv
      subst hkv
      exact ⟨by decide, by decide⟩)
    (by
      intro kv hkv
      cases hkv)

/-! Claim C2 -/

/-- Evaluating `find?` over a list of consecutive naturals starting at `c` returns `a`
exactly when `a` is the least element of `[c, c+n)` satisfying the
predicate. -/
theorem find?_range_map_eq_some (p : Nat → Bool) :
    ∀ (n c a : Nat),
      ((List.range n).map (fun k => c + k)).find? p = some a ↔
        (c ≤ a ∧ a < c + n ∧ p a = true ∧ ∀ j, c ≤ j → j < a → p j = false) := by
  intro n
  induction n with
  | zero =>
    intro c a
    constructor
    · intro h
      simp at h
    · rintro ⟨h1, h2, -, -⟩
      omega
  | succ m ih =>
    intro c a
    have hsplit : (List.range (m + 1)).map (fun k => c + k)
        = c :: (List.range m).map (fun k => (c + 1) + k) := by
      rw [List.range_succ_eq_map, List.map_cons, List.map_map]
      have hfun : ((fun k => c + k) ∘ Nat.succ) = (fun k : Nat => (c + 1) + k) := by
        funext k
        simp only [Function.comp_apply]
        omega
      rw [hfun]
      simp
    rw [hsplit]
    by_cases hp : p c = true
    · rw [List.find?_cons_of_pos _ hp]
      constructor
      · intro h
        have ha : c = a := Option.some.inj h
        subst ha
        exact ⟨le_refl _, by omega, hp, fun j hj1 hj2 => absurd hj1 (by omega)⟩
      · rintro ⟨h1, h2, hpa, hmin⟩
        by_cases hac : a = c
        · subst hac; rfl
        · exfalso
          have hfalse : p c = false := hmin c (le_refl c) (by omega)
          rw [hp] at hfalse
          cases hfalse
    · rw [List.find?_cons_of_neg _ hp, ih (c + 1) a]
      constructor
      · rintro ⟨h1, h2, hpa, hmin⟩
        refine ⟨by omega, by omega, hpa, fun j hj1 hj2 => ?_⟩
        by_cases hjc : j = c
        · subst hjc
          exact Bool.eq_false_iff.mpr hp
        · exact hmin j (by omega) hj2
      · rintro ⟨h1, h2, hpa, hmin⟩
        have hac : a ≠ c := fun heq => hp (heq ▸ hpa)
        exact ⟨by omega, by omega, hpa, fun j hj1 hj2 => hmin j (by omega) hj2⟩

/-- The result of `find?` only depends on the predicate values on the list. -/
theorem find?_congr_on {α : Type} (l : List α) (p q : α → Bool)
    (h : ∀ x ∈ l, p x = q x) : l.find? p = l.find? q := by
  induction l with
  | nil => rfl
  | cons a t ih =>
    have ha := h a (List.mem_cons_self a t)
    cases hq : q a with
    | true =>
      rw [List.find?_cons_of_pos _ (ha.trans hq), List.find?_cons_of_pos _ hq]
    | false =>
      rw [List.find?_cons_of_neg _ (by simp [ha, hq]),
        List.find?_cons_of_neg _ (by simp [hq])]
      exact ih (fun x hx => h x (List.mem_cons_of_mem a hx))

/-- On a pool whose subnet has at least four addresses, `next_ip` is the
first address of `[first+2, first+size-2]` without an `Address` row: the
`iter_hosts` scan together with the index-2/index-(-2) skip condition. -/
theorem next_ip_eq (p : AddressPool) (used : List Nat)
    (hp : p.net.prefixlen ≤ 30) :
    p.next_ip used
      = ((List.range (p.net.size - 3)).map
          (fun k => p.net.first + 2 + k)).find?
          (fun ip => !(used.contains ip)) := by
  have hsize : 4 ≤ p.net.size := by
    unfold IPNetwork.size
    calc (4 : Nat) = 2 ^ 2 := rfl
    _ ≤ 2 ^ (32 - p.net.prefixlen) := Nat.pow_le_pow_right (by omega) (by omega)
  unfold AddressPool.next_ip IPNetwork.iter_hosts
  have h1 : p.net.size - 2 = (p.net.size - 3) + 1 := by omega
  rw [h1, List.range_succ_eq_map, List.map_cons, List.map_map]
  rw [List.find?_cons_of_neg _ (by simp)]
  have hcomp : ((fun k => p.net.first + 1 + k) ∘ Nat.succ)
      = (fun k => p.net.first + 2 + k) := by
    funext k
    simp only [Function.comp_apply]
    omega
  rw [hcomp]
  apply find?_congr_on
  intro x hx
  obtain ⟨k, hk, rfl⟩ := List.mem_map.mp hx
  have hk2 : k < p.net.size - 3 := List.mem_range.mp hk
  have e1 : decide (p.net.first + 2 + k < p.net.first + 2) = false := by
    simp
  have e2 : decide (p.net.first + p.net.size - 2 < p.net.first + 2 + k)
      = false := by
    simp
    omega
  rw [e1, e2]
  rfl

/-- Sequential allocation fills the candidate addresses in order: with the
first `k` candidates already used, `n` further calls return the next `n`
candidates. -/
theorem next_ip_seq_fills (p : AddressPool) (hp : p.net.prefixlen ≤ 30) :
    ∀ (n k : Nat), k + n ≤ p.net.size - 3 →
      p.next_ip_seq n ((List.range k).map (fun j => p.net.first + 2 + j))
        = (List.range n).map (fun j => p.net.first + 2 + (k + j)) := by
  have hsize : 4 ≤ p.net.size := by
    unfold IPNetwork.size
    calc (4 : Nat) = 2 ^ 2 := rfl
    _ ≤ 2 ^ (32 - p.net.prefixlen) := Nat.pow_le_pow_right (by omega) (by omega)
  intro n
  induction n with
  | zero => intro k _; rfl
  | succ m ih =>
    intro k h
    have hnext : p.next_ip ((List.range k).map (fun j => p.net.first + 2 + j))
        = some (p.net.first + 2 + k) := by
      rw [next_ip_eq p _ hp, find?_range_map_eq_some]
      refine ⟨by omega, by omega, ?_, ?_⟩
      · have hnm : (p.net.first + 2 + k)
            ∉ (List.range k).map (fun j => p.net.first + 2 + j) := by
          intro hmem
          obtain ⟨j, hj, hje⟩ := List.mem_map.mp hmem
          have := List.mem_range.mp hj
          omega
        simp [hnm]
      · intro j hj1 hj2
        have hmem : j ∈ (List.range k).map (fun jj => p.net.first + 2 + jj) :=
          List.mem_map.mpr ⟨j - (p.net.first + 2),
            List.mem_range.mpr (by omega), by omega⟩
        simp [hmem]
    unfold AddressPool.next_ip_seq
    simp only [hnext]
    have happ : (List.range k).map (fun j => p.net.first + 2 + j)
          ++ [p.net.first + 2 + k]
        = (List.range (k + 1)).map (fun j => p.net.first + 2 + j) := by
      rw [List.range_succ, List.map_append]
      simp
    rw [happ, ih (k + 1) (by omega), List.range_succ_eq_map,
      List.map_cons, List.map_map]
    have hfun : ((fun j => p.net.first + 2 + (k + j)) ∘ Nat.succ)
        = (fun j : Nat => p.net.first + 2 + (k + 1 + j)) := by
      funext j
      simp only [Function.comp_apply]
      omega
    rw [hfun]
    simp

/-- C2: on any pool (of the prefix lengths ≤ 30 this repository manages),
`next_ip` returns the smallest address between index 2 and index -2 of the
claimed subnet that has no existing `Address` row — in particular never
the network address (index 0), the reserved index 1, or the broadcast
address — and it raises the pool-exhausted `DevopsError` (`none`) exactly
when no such address remains; `N` sequential calls starting from no
pre-existing rows return `N` distinct addresses in increasing order
starting at index 2. -/
theorem claim_C2_next_ip (p : AddressPool) (used : List Nat) (N : Nat)
    (hp : p.net.prefixlen ≤ 30) :
    (∀ ip, p.next_ip used = some ip →
        p.net.first + 2 ≤ ip
        ∧ ip ≤ p.net.first + p.net.size - 2
        ∧ used.contains ip = false
        ∧ (∀ j, p.net.first + 2 ≤ j → j < ip → used.contains j = true)
        ∧ ip ≠ p.net.first ∧ ip ≠ p.net.first + 1 ∧ ip ≠ p.net.last)
    ∧ (p.next_ip used = none ↔
        ∀ j, p.net.first + 2 ≤ j → j ≤ p.net.first + p.net.size - 2 →
          used.contains j = true)
    ∧ (N ≤ p.net.size - 3 →
        p.next_ip_seq N []
          = (List.range N).map (fun k => p.net.first + 2 + k)) := by
  have hsize : 4 ≤ p.net.size := by
    unfold IPNetwork.size
    calc (4 : Nat) = 2 ^ 2 := rfl
    _ ≤ 2 ^ (32 - p.net.prefixlen) := Nat.pow_le_pow_right (by omega) (by omega)
  refine ⟨?_, ?_, ?_⟩
  · intro ip h
    rw [next_ip_eq p used hp, find?_range_map_eq_some] at h
    obtain ⟨h1, h2, h3, h4⟩ := h
    have hc : used.contains ip = false := by
      simpa using h3
    refine ⟨h1, by omega, hc, ?_, ?_, ?_, ?_⟩
    · intro j hj1 hj2
      have := h4 j hj1 hj2
      simpa using this
    · omega
    · omega
    · unfold IPNetwork.last
      omega
  · rw [next_ip_eq p used hp, List.find?_eq_none]
    constructor
    · intro h j hj1 hj2
      have hmem : j ∈ (List.range (p.net.size - 3)).map
          (fun k => p.net.first + 2 + k) :=
        List.mem_map.mpr ⟨j - (p.net.first + 2),
          List.mem_range.mpr (by omega), by omega⟩
      have := h j hmem
      simpa using this
    · intro h x hx
      obtain ⟨k, hk, rfl⟩ := List.mem_map.mp hx
      have hk2 := List.mem_range.mp hk
      have := h (p.net.first + 2 + k) (by omega) (by omega)
      simp at this ⊢
      exact this
  · intro hN
    have := next_ip_seq_fills p hp N 0 (by omega)
    simpa using this

/-- Witness for C2 at a concrete input (172.0.0.0/29: addresses
172.0.0.0-172.0.0.7; index 2 is value 2885681154). -/
theorem claim_C2_witness :
    (∀ ip, AddressPool.next_ip ⟨"w", ⟨2885681152, 29⟩, [], []⟩ [2885681154]
        = some ip →
        2885681152 + 2 ≤ ip
        ∧ ip ≤ 2885681152 + 8 - 2
        ∧ [2885681154].contains ip = false
        ∧ (∀ j, 2885681152 + 2 ≤ j → j < ip →
            [2885681154].contains j = true)
        ∧ ip ≠ 2885681152 ∧ ip ≠ 2885681152 + 1
        ∧ ip ≠ (⟨2885681152, 29⟩ : IPNetwork).last)
    ∧ (AddressPool.next_ip ⟨"w", ⟨2885681152, 29⟩, [], []⟩ [2885681154] = none ↔
        ∀ j, 2885681152 + 2 ≤ j → j ≤ 2885681152 + 8 - 2 →
          [2885681154].contains j = true)
    ∧ (3 ≤ 8 - 3 →
        AddressPool.next_ip_seq ⟨"w", ⟨2885681152, 29⟩, [], []⟩ 3 []
          = (List.range 3).map (fun k => 2885681152 + 2 + k)) :=
  claim_C2_next_ip ⟨"w", ⟨2885681152, 29⟩, [], []⟩ [2885681154] 3 (by decide)

/-! Claim C1 -/

/-- The network address is a multiple of the network size. -/
theorem size_dvd_first (n : IPNetwork) : n.size ∣ n.first := by
  unfold IPNetwork.first
  have h := Nat.div_add_mod n.base n.size
  refine ⟨n.base / n.size, ?_⟩
  omega

/-- A network whose base has no host bits set has `first = base`. -/
theorem first_of_aligned (n : IPNetwork) (h : n.base % n.size = 0) :
    n.first = n.base := by
  unfold IPNetwork.first
  omega

theorem subnet_block_first (s : IPNetwork) (pfx i : Nat)
    (hsp : s.prefixlen ≤ pfx) (h32 : pfx ≤ 32) :
    (⟨s.first + i * 2 ^ (32 - pfx), pfx⟩ : IPNetwork).first
      = s.first + i * 2 ^ (32 - pfx) := by
  have hdvd : 2 ^ (32 - pfx) ∣ s.first := by
    have h1 : (2 : Nat) ^ (32 - pfx) ∣ s.size := by
      unfold IPNetwork.size
      exact pow_dvd_pow 2 (by omega)
    exact h1.trans (size_dvd_first s)
  obtain ⟨q, hq⟩ := hdvd
  apply first_of_aligned
  show (s.first + i * 2 ^ (32 - pfx)) % 2 ^ (32 - pfx) = 0
  rw [hq, Nat.add_mul_mod_self_right, Nat.mul_mod_right]

/-- Block `i` of a supernet is contained in the supernet. -/
theorem subnet_block_containedIn (s : IPNetwork) (pfx i : Nat)
    (hsp : s.prefixlen ≤ pfx) (h32 : pfx ≤ 32)
    (hi : i < 2 ^ (pfx - s.prefixlen)) :
    (⟨s.first + i * 2 ^ (32 - pfx), pfx⟩ : IPNetwork).containedIn s := by
  have hpow : 2 ^ (pfx - s.prefixlen) * 2 ^ (32 - pfx) = s.size := by
    unfold IPNetwork.size
    rw [← pow_add]
    congr 1
    omega
  have hfirst := subnet_block_first s pfx i hsp h32
  have hB : 0 < 2 ^ (32 - pfx) := Nat.two_pow_pos _
  have hle : i * 2 ^ (32 - pfx) + 2 ^ (32 - pfx) ≤ s.size := by
    have h1 : (i + 1) * 2 ^ (32 - pfx)
        ≤ 2 ^ (pfx - s.prefixlen) * 2 ^ (32 - pfx) :=
      Nat.mul_le_mul_right _ (by omega)
    calc i * 2 ^ (32 - pfx) + 2 ^ (32 - pfx)
        = (i + 1) * 2 ^ (32 - pfx) := by ring
    _ ≤ 2 ^ (pfx - s.prefixlen) * 2 ^ (32 - pfx) := h1
    _ = s.size := hpow
  have hsz : (⟨s.first + i * 2 ^ (32 - pfx), pfx⟩ : IPNetwork).size
      = 2 ^ (32 - pfx) := rfl
  unfold IPNetwork.containedIn IPNetwork.last
  rw [hfirst, hsz]
  omega

/-- Within one supernet, distinct blocks do not overlap. -/
theorem subnet_blocks_disjoint (s : IPNetwork) (pfx i j : Nat)
    (hsp : s.prefixlen ≤ pfx) (h32 : pfx ≤ 32) (hij : i < j) :
    ¬ (⟨s.first + i * 2 ^ (32 - pfx), pfx⟩ : IPNetwork).overlaps
        ⟨s.first + j * 2 ^ (32 - pfx), pfx⟩ := by
  have hfi := subnet_block_first s pfx i hsp h32
  have hfj := subnet_block_first s pfx j hsp h32
  have hB : 0 < 2 ^ (32 - pfx) := Nat.two_pow_pos _
  have hij2 : i * 2 ^ (32 - pfx) + 2 ^ (32 - pfx) ≤ j * 2 ^ (32 - pfx) := by
    have h1 : (i + 1) * 2 ^ (32 - pfx) ≤ j * 2 ^ (32 - pfx) :=
      Nat.mul_le_mul_right _ (by omega)
    calc i * 2 ^ (32 - pfx) + 2 ^ (32 - pfx)
        = (i + 1) * 2 ^ (32 - pfx) := by ring
    _ ≤ j * 2 ^ (32 - pfx) := h1
  have hszi : (⟨s.first + i * 2 ^ (32 - pfx), pfx⟩ : IPNetwork).size
      = 2 ^ (32 - pfx) := rfl
  have hszj : (⟨s.first + j * 2 ^ (32 - pfx), pfx⟩ : IPNetwork).size
      = 2 ^ (32 - pfx) := rfl
  unfold IPNetwork.overlaps IPNetwork.last
  rw [hfi, hfj, hszi, hszj]
  rintro ⟨h1, h2⟩
  omega

/-- Containment in non-overlapping supernets forces non-overlap. -/
theorem containedIn_disjoint (c d s t : IPNetwork)
    (hc : c.containedIn s) (hd : d.containedIn t) (hst : ¬ s.overlaps t) :
    ¬ c.overlaps d := by
  unfold IPNetwork.containedIn at hc hd
  unfold IPNetwork.overlaps at hst ⊢
  rintro ⟨h1, h2⟩
  exact hst ⟨by omega, by omega⟩

/-- Membership in the block list of a supernet. -/
theorem mem_subnets (s : IPNetwork) (pfx : Nat) (c : IPNetwork) :
    c ∈ IpNetworksPool.subnets s pfx ↔
      ∃ i, i < 2 ^ (pfx - s.prefixlen)
        ∧ c = ⟨s.first + i * 2 ^ (32 - pfx), pfx⟩ := by
  unfold IpNetworksPool.subnets
  constructor
  · intro h
    obtain ⟨i, hi, rfl⟩ := List.mem_map.mp h
    exact ⟨i, List.mem_range.mp hi, rfl⟩
  · rintro ⟨i, hi, rfl⟩
    exact List.mem_map.mpr ⟨i, List.mem_range.mpr hi, rfl⟩

/-- C1 counterexample: listing the same supernet 10.0.0.0/24 twice satisfies
the P at least each supernet prefix condition, yet makes the enumeration produce the same
/24 block twice, so the output is not pairwise non-overlapping: the claim
needs the supernets themselves to be pairwise non-overlapping. -/
theorem claim_C1_counterexample :
    IpNetworksPool.enumerate [⟨167772160, 24⟩, ⟨167772160, 24⟩] 24 []
      = [⟨167772160, 24⟩, ⟨167772160, 24⟩]
    ∧ (⟨167772160, 24⟩ : IPNetwork).overlaps ⟨167772160, 24⟩
    ∧ ¬ (IpNetworksPool.enumerate [⟨167772160, 24⟩, ⟨167772160, 24⟩] 24
          []).Pairwise (fun a b => ¬ a.overlaps b) := by
  refine ⟨by decide, by decide, fun h => ?_⟩
  have heq : IpNetworksPool.enumerate [⟨167772160, 24⟩, ⟨167772160, 24⟩] 24 []
      = [⟨167772160, 24⟩, ⟨167772160, 24⟩] := by decide
  rw [heq] at h
  exact (List.pairwise_cons.mp h).1 ⟨167772160, 24⟩ (by simp) (by decide)

/-- C1 amended: for pairwise non-overlapping supernets `S` and a target
prefix `P ≥` each supernet prefix (and `P ≤ 32`), enumerating with an
empty excluded set yields exactly `sum(2 ^ (P - prefix))` candidates,
pairwise non-overlapping, each contained in some supernet of `S`, in
supernet order (the output is the per-supernet block lists concatenated in
`S` order) with strictly increasing base addresses inside each supernet;
concretely 10.1.0.0/22 at prefix 24 yields 10.1.0.0/24 .. 10.1.3.0/24 in
order, and excluding 10.1.1.0/24 and 10.1.3.0/24 leaves 10.1.0.0/24 and
10.1.2.0/24. -/
theorem claim_C1_enumeration (S : List IPNetwork) (P : Nat)
    (hpre : ∀ s ∈ S, s.prefixlen ≤ P) (h32 : P ≤ 32)
    (hdisj : S.Pairwise (fun a b => ¬ a.overlaps b)) :
    (IpNetworksPool.enumerate S P []).length
        = (S.map (fun s => 2 ^ (P - s.prefixlen))).sum
    ∧ (IpNetworksPool.enumerate S P []).Pairwise (fun a b => ¬ a.overlaps b)
    ∧ (∀ c ∈ IpNetworksPool.enumerate S P [], ∃ s ∈ S, c.containedIn s)
    ∧ IpNetworksPool.enumerate S P []
        = S.flatMap (fun s => IpNetworksPool.subnets s P)
    ∧ (∀ s ∈ S, (IpNetworksPool.subnets s P).Pairwise
        (fun a b => a.base < b.base))
    ∧ (IpNetworksPool.enumerate [⟨167837696, 22⟩] 24 []).map
        (fun c => ipv4Str c.base ++ "/" ++ toString c.prefixlen)
        = ["10.1.0.0/24", "10.1.1.0/24", "10.1.2.0/24", "10.1.3.0/24"]
    ∧ (IpNetworksPool.enumerate [⟨167837696, 22⟩] 24
          [⟨167837952, 24⟩, ⟨167838464, 24⟩]).map
        (fun c => ipv4Str c.base ++ "/" ++ toString c.prefixlen)
        = ["10.1.0.0/24", "10.1.2.0/24"] := by
  have hd : IpNetworksPool.enumerate S P []
      = S.flatMap (fun s => IpNetworksPool.subnets s P) := by
    unfold IpNetworksPool.enumerate
    congr 1
    funext s
    exact List.filter_eq_self.mpr (fun a _ => rfl)
  refine ⟨?_, ?_, ?_, hd, ?_, by decide, by decide⟩
  · rw [hd, List.length_flatMap]
    congr 1
    apply List.map_congr_left
    intro s _
    simp [IpNetworksPool.subnets]
  · rw [hd, List.pairwise_flatMap]
    constructor
    · intro s hs
      unfold IpNetworksPool.subnets
      rw [List.pairwise_map]
      exact (List.pairwise_lt_range _).imp
        (fun hij => subnet_blocks_disjoint s P _ _ (hpre s hs) h32 hij)
    · refine List.Pairwise.imp_of_mem ?_ hdisj
      intro s t hs ht hst x hx y hy
      obtain ⟨i, hi, rfl⟩ := (mem_subnets s P x).mp hx
      obtain ⟨j, hj, rfl⟩ := (mem_subnets t P y).mp hy
      exact containedIn_disjoint _ _ s t
        (subnet_block_containedIn s P i (hpre s hs) h32 hi)
        (subnet_block_containedIn t P j (hpre t ht) h32 hj) hst
  · intro c hc
    rw [hd] at hc
    obtain ⟨s, hs, hcs⟩ := List.mem_flatMap.mp hc
    obtain ⟨i, hi, rfl⟩ := (mem_subnets s P c).mp hcs
    exact ⟨s, hs, subnet_block_containedIn s P i (hpre s hs) h32 hi⟩
  · intro s hs
    unfold IpNetworksPool.subnets
    rw [List.pairwise_map]
    refine (List.pairwise_lt_range _).imp ?_
    intro i j hij
    show s.first + i * 2 ^ (32 - P) < s.first + j * 2 ^ (32 - P)
    have := (Nat.mul_lt_mul_right (Nat.two_pow_pos (32 - P))).mpr hij
    omega

/-- Witness for the amended C1 theorem at the concrete supernet 10.1.0.0/22
and target prefix 24. -/
theorem claim_C1_witness :
    (IpNetworksPool.enumerate [⟨167837696, 22⟩] 24 []).length
        = (([⟨167837696, 22⟩] : List IPNetwork).map
            (fun s => 2 ^ (24 - s.prefixlen))).sum
    ∧ (IpNetworksPool.enumerate [⟨167837696, 22⟩] 24 []).Pairwise
        (fun a b => ¬ a.overlaps b)
    ∧ (∀ c ∈ IpNetworksPool.enumerate [⟨167837696, 22⟩] 24 [],
        ∃ s ∈ ([⟨167837696, 22⟩] : List IPNetwork), c.containedIn s)
    ∧ IpNetworksPool.enumerate [⟨167837696, 22⟩] 24 []
        = ([⟨167837696, 22⟩] : List IPNetwork).flatMap
            (fun s => IpNetworksPool.subnets s 24)
    ∧ (∀ s ∈ ([⟨167837696, 22⟩] : List IPNetwork),
        (IpNetworksPool.subnets s 24).Pairwise (fun a b => a.base < b.base))
    ∧ (IpNetworksPool.enumerate [⟨167837696, 22⟩] 24 []).map
        (fun c => ipv4Str c.base ++ "/" ++ toString c.prefixlen)
        = ["10.1.0.0/24", "10.1.1.0/24", "10.1.2.0/24", "10.1.3.0/24"]
    ∧ (IpNetworksPool.enumerate [⟨167837696, 22⟩] 24
          [⟨167837952, 24⟩, ⟨167838464, 24⟩]).map
        (fun c => ipv4Str c.base ++ "/" ++ toString c.prefixlen)
        = ["10.1.0.0/24", "10.1.2.0/24"] :=
  claim_C1_enumeration [⟨167837696, 22⟩] 24 (by decide) (by decide)
    (List.pairwise_singleton _ _)
